import Mathlib

/-!
Verification of the rate-limiting core of the `eq-works-glitch` service
(`src/app.py`): the fixed-window counter (`RateLimit`), the admission
decorator (`ratelimit` / `rate_limited`), the over-limit rejection handler
(`on_over_limit`) and the response-header decorator
(`inject_x_rate_headers`), shallowly embedded over an explicit Redis store
state.  Python integers are modelled as `Int`, Python `//` as `Int.fdiv`
(floor division), `str` as `toString`, and the two runtime failure modes of
the admission path (`ZeroDivisionError` when `per = 0`, a Redis connection
error when the store is unreachable) as an `Except PyError` result.
-/

namespace EqWorks

/-- Runtime errors that can escape the admission path in `app.py`:
`ZeroDivisionError` from `int(time.time()) // per` when `per == 0`, and a
redis connection error raised by `p.execute()` when the store is down. -/
inductive PyError where
  | zeroDivision
  | storeUnavailable
  deriving DecidableEq, Repr

/-- The two redis commands the limiter queues on its pipeline. -/
inductive RedisCmd where
  | incr (key : String)
  | expireat (key : String) (t : Int)
  deriving DecidableEq, Repr

/-- State of the redis store: counters and absolute expiry timestamps as
association lists (most recent binding first), plus a reachability flag. -/
structure RedisState where
  counters : List (String × Int)
  expiry : List (String × Int)
  available : Bool
  deriving DecidableEq, Repr

/-- Current value of a counter key; redis `INCR` treats a missing key as 0. -/
def getCounter (st : RedisState) (k : String) : Int :=
  (st.counters.lookup k).getD 0

/-- Scheduled expiry of a key, if any. -/
def getExpiry (st : RedisState) (k : String) : Option Int :=
  st.expiry.lookup k

/-- One redis command: `INCR` returns the post-increment value, `EXPIREAT`
sets the absolute expiry and returns 1. -/
def runCmd (st : RedisState) : RedisCmd → Int × RedisState
  | .incr k =>
      let v := getCounter st k + 1
      (v, { st with counters := (k, v) :: st.counters })
  | .expireat k t =>
      (1, { st with expiry := (k, t) :: st.expiry })

/-- Run a list of queued commands in order, collecting their results. -/
def execCmds : List RedisCmd → RedisState → List Int × RedisState
  | [], st => ([], st)
  | c :: cs, st =>
      let p := runCmd st c
      let q := execCmds cs p.2
      (p.1 :: q.1, q.2)

/-- Embedding of `p.execute()`: one round trip executing the queued batch atomically;
raises a connection error when the store is unreachable. -/
def pipelineExec (cmds : List RedisCmd) (st : RedisState) :
    Except PyError (List Int × RedisState) :=
  if st.available = true then .ok (execCmds cmds st) else .error .storeUnavailable

/-- Embedding of the `RateLimit` object (its fields after `__init__`). -/
structure RateLimit where
  reset : Int
  key : String
  limit : Int
  per : Int
  send_x_headers : Bool
  current : Int
  deriving DecidableEq, Repr

/-- The class attribute `RateLimit.expiration_window = 10`. -/
def RateLimit.expiration_window : Int := 10

/-- The batch queued by `__init__`: `p.incr(self.key)` then
`p.expireat(self.key, self.reset + self.expiration_window)`. -/
def windowCmds (key : String) (reset : Int) : List RedisCmd :=
  [.incr key, .expireat key (reset + RateLimit.expiration_window)]

/-- Embedding of `RateLimit.__init__(key_prefix, limit, per, send_x_headers)`:
`self.reset = (int(time.time()) // per) * per + per`,
`self.key = key_prefix + str(self.reset)`, queue incr+expireat on a
pipeline, `self.current = min(p.execute()[0], limit)`.  A zero `per` raises
`ZeroDivisionError`; an unreachable store raises from `p.execute()`. -/
def RateLimit.init (now : Int) (pfx : String) (limit per : Int)
    (send_x_headers : Bool) (st : RedisState) :
    Except PyError (RateLimit × RedisState) :=
  if per = 0 then .error .zeroDivision
  else
    let reset := (Int.fdiv now per) * per + per
    let key := pfx ++ toString reset
    match pipelineExec (windowCmds key reset) st with
    | .error e => .error e
    | .ok (results, st') =>
        .ok ({ reset := reset, key := key, limit := limit, per := per,
               send_x_headers := send_x_headers,
               current := min (results.headD 0) limit }, st')

/-- Embedding of `remaining = property(lambda x: x.limit - x.current)`. -/
def RateLimit.remaining (x : RateLimit) : Int := x.limit - x.current

/-- Embedding of `over_limit = property(lambda x: x.current >= x.limit)`. -/
def RateLimit.over_limit (x : RateLimit) : Bool := decide (x.limit ≤ x.current)

/-- Response body: either a `jsonify`d object (list of string fields) or an
arbitrary handler payload. -/
inductive Body where
  | json (fields : List (String × String))
  | text (s : String)
  deriving DecidableEq, Repr

/-- An HTTP response: body, status code, headers (in insertion order). -/
structure Response where
  body : Body
  status : Nat
  headers : List (String × String)
  deriving DecidableEq, Repr

/-- The parts of the flask request the limiter reads: `request.endpoint`
(default `key_func`) and `request.remote_addr` (default `scope_func`). -/
structure Request where
  endpoint : String
  remote_addr : String
  deriving DecidableEq, Repr

/-- The per-request context `g`, holding `g._view_rate_limit` if set. -/
structure Ctx where
  view_rate_limit : Option RateLimit
  deriving DecidableEq, Repr

/-- Embedding of `get_view_rate_limit()`, i.e. of `getattr(g, '_view_rate_limit', None)`. -/
def get_view_rate_limit (ctx : Ctx) : Option RateLimit :=
  ctx.view_rate_limit

/-- Embedding of `on_over_limit(limit)`: the fixed 429 rejection response. -/
def on_over_limit (_rlimit : RateLimit) : Response :=
  { body := .json [("data", "You hit the rate limit"), ("error", "429")],
    status := 429, headers := [] }

/-- The scope key `'rate-limit/%s/%s/' % (key_func(), scope_func())` with
the default `key_func` (`request.endpoint`) and `scope_func`
(`request.remote_addr`). -/
def scopeKey (req : Request) : String :=
  "rate-limit/" ++ req.endpoint ++ "/" ++ req.remote_addr ++ "/"

/-- Embedding of one invocation of the wrapped handler `rate_limited`:
build the scope key, construct the `RateLimit` (one store round trip),
store it on `g`, then either short-circuit through the `over_limit`
handler (when it is not `None` and the check is over limit) or call `f`. -/
def rate_limited (limit per : Int) (send_x_headers : Bool)
    (over_limit : Option (RateLimit → Response))
    (f : Unit → Response) (req : Request) (now : Int)
    (st : RedisState) (ctx : Ctx) :
    Except PyError (Response × RedisState × Ctx) :=
  match RateLimit.init now (scopeKey req) limit per send_x_headers st with
  | .error e => .error e
  | .ok (rlimit, st') =>
      let ctx' : Ctx := { view_rate_limit := some rlimit }
      match over_limit with
      | some handler =>
          if rlimit.over_limit then .ok (handler rlimit, st', ctx')
          else .ok (f (), st', ctx')
      | none => .ok (f (), st', ctx')

/-- Embedding of the decorator factory `ratelimit(limit, per, ...)` applied
to a handler `f`: it only builds the wrapped callable; no validation of
`limit` or `per` happens at wrap time. -/
def ratelimit (limit per : Int) (send_x_headers : Bool)
    (over_limit : Option (RateLimit → Response))
    (f : Unit → Response) :
    Request → Int → RedisState → Ctx →
      Except PyError (Response × RedisState × Ctx) :=
  fun req now st ctx =>
    rate_limited limit per send_x_headers over_limit f req now st ctx

/-- Embedding of the `after_request` hook `inject_x_rate_headers`. -/
def inject_x_rate_headers (ctx : Ctx) (response : Response) : Response :=
  match get_view_rate_limit ctx with
  | some l =>
      if l.send_x_headers then
        { response with headers := response.headers ++
            [("X-RateLimit-Remaining", toString l.remaining),
             ("X-RateLimit-Limit", toString l.limit),
             ("X-RateLimit-Reset", toString l.reset)] }
      else response
  | none => response

/-- Runs `n` sequential invocations of the wrapped handler at a fixed wall-clock
time, threading the store and the request context. -/
def runChecks (limit per : Int) (send_x_headers : Bool)
    (over_limit : Option (RateLimit → Response))
    (f : Unit → Response) (req : Request) (now : Int) :
    Nat → RedisState → Ctx → Except PyError (List Response × RedisState × Ctx)
  | 0, st, ctx => .ok ([], st, ctx)
  | n + 1, st, ctx =>
      match rate_limited limit per send_x_headers over_limit f req now st ctx with
      | .error e => .error e
      | .ok (r, st', ctx') =>
          match runChecks limit per send_x_headers over_limit f req now n st' ctx' with
          | .error e => .error e
          | .ok (rs, st'', ctx'') => .ok (r :: rs, st'', ctx'')

/-- Project the response component of a wrapped-handler result. -/
def respOf (x : Except PyError (Response × RedisState × Ctx)) :
    Except PyError Response :=
  x.map (fun p => p.1)

/-- Project the response list of a sequential run. -/
def respsOf (x : Except PyError (List Response × RedisState × Ctx)) :
    Except PyError (List Response) :=
  x.map (fun p => p.1)

/-- A fresh store: no counters, no expiries, reachable. -/
def st0 : RedisState := { counters := [], expiry := [], available := true }

/-- An unreachable store. -/
def stDown : RedisState := { counters := [], expiry := [], available := false }

/-- An empty request context. -/
def ctx0 : Ctx := { view_rate_limit := none }

/-- A sample request. -/
def req0 : Request := { endpoint := "events_hourly", remote_addr := "1.2.3.4" }

/-- A distinguishable successful handler response. -/
def okResp : Response := { body := .text "ok", status := 200, headers := [] }

/-- A sample protected handler. -/
def f0 : Unit → Response := fun _ => okResp

/-- The fixed rejection response produced by `on_over_limit`. -/
def reject429 : Response :=
  { body := .json [("data", "You hit the rate limit"), ("error", "429")],
    status := 429, headers := [] }

/-- The full counter key an admission check touches: scope key followed by
the decimal window-end timestamp. -/
def fullKey (req : Request) (now per : Int) : String :=
  scopeKey req ++ toString (Int.fdiv now per * per + per)

/-- The responses the limiter produces for `n` sequential checks whose
counter starts at `c`: the `i`-th check sees post-increment count
`c + i + 1` and is rejected as soon as that reaches `limit`. -/
def expectedResponses (limit : Int) (f : Unit → Response) :
    Nat → Int → List Response
  | 0, _ => []
  | n + 1, c =>
      (if limit ≤ c + 1 then reject429 else f ()) ::
        expectedResponses limit f n (c + 1)

/-- Decimal digit characters of a natural number, most significant first:
a structurally recursive reference for `Nat.toDigits 10`. -/
def natDigits (n : Nat) : List Char :=
  if n < 10 then [Nat.digitChar n]
  else natDigits (n / 10) ++ [Nat.digitChar (n % 10)]
decreasing_by exact Nat.div_lt_self (by omega) (by omega)

/-- Read a decimal digit string back as a number. -/
def parseDigits (l : List Char) : Nat :=
  l.foldl (fun a c => a * 10 + (c.toNat - 48)) 0

end EqWorks

namespace EqWorks

theorem digitChar_toNat_sub (d : Nat) (hd : d < 10) :
    (Nat.digitChar d).toNat - 48 = d := by
  interval_cases d <;> decide

theorem toDigitsCore_eq_natDigits (fuel : Nat) :
    ∀ (n : Nat) (ds : List Char), n < fuel →
      Nat.toDigitsCore 10 fuel n ds = natDigits n ++ ds := by
  induction fuel with
  | zero => intro n ds h; omega
  | succ fuel ih =>
    intro n ds h
    by_cases h10 : n / 10 = 0
    · have hlt : n < 10 := by omega
      rw [Nat.toDigitsCore]
      simp only [h10, if_true]
      rw [natDigits]
      simp [hlt, Nat.mod_eq_of_lt hlt]
    · have hge : ¬ n < 10 := by omega
      rw [Nat.toDigitsCore]
      simp only [h10, if_false]
      rw [ih (n / 10) _ (by omega)]
      conv_rhs => rw [natDigits]
      simp [hge, List.append_assoc]

theorem toDigits_eq_natDigits (n : Nat) : Nat.toDigits 10 n = natDigits n := by
  have := toDigitsCore_eq_natDigits (n + 1) n [] (Nat.lt_succ_self n)
  simpa [Nat.toDigits] using this

theorem foldl_natDigits (n : Nat) : ∀ a : Nat,
    List.foldl (fun a c => a * 10 + (c.toNat - 48)) a (natDigits n)
      = a * 10 ^ (natDigits n).length + n := by
  induction n using Nat.strong_induction_on with
  | _ n ih =>
    intro a
    rw [natDigits]
    by_cases hlt : n < 10
    · simp [hlt, List.foldl, digitChar_toNat_sub n hlt]
    · have hpos : 0 < n := by omega
      simp only [hlt, if_false]
      rw [List.foldl_append, ih (n / 10) (Nat.div_lt_self hpos (by omega)) a]
      have hmod : n % 10 < 10 := Nat.mod_lt n (by omega)
      simp only [List.foldl, List.length_append, List.length_cons,
        List.length_nil, digitChar_toNat_sub (n % 10) hmod, pow_succ]
      have hdm : n / 10 * 10 + n % 10 = n := by omega
      ring_nf
      omega

theorem parseDigits_natDigits (n : Nat) : parseDigits (natDigits n) = n := by
  have := foldl_natDigits n 0
  simpa [parseDigits] using this

theorem natDigits_injective {m n : Nat} (h : natDigits m = natDigits n) :
    m = n := by
  have hm := parseDigits_natDigits m
  rw [h, parseDigits_natDigits n] at hm
  exact hm.symm

theorem nat_repr_injective {m n : Nat} (h : Nat.repr m = Nat.repr n) :
    m = n := by
  apply natDigits_injective
  rw [← toDigits_eq_natDigits, ← toDigits_eq_natDigits]
  have := congrArg String.data h
  simpa [Nat.repr, List.asString] using this

theorem toString_int_injective {a b : Int} (ha : 0 ≤ a) (hb : 0 ≤ b)
    (h : toString a = toString b) : a = b := by
  obtain ⟨m, rfl⟩ := Int.eq_ofNat_of_zero_le ha
  obtain ⟨n, rfl⟩ := Int.eq_ofNat_of_zero_le hb
  have hr : Nat.repr m = Nat.repr n := h
  exact congrArg Int.ofNat (nat_repr_injective hr)

theorem getCounter_update_self (st : RedisState) (e : List (String × Int))
    (k : String) (v : Int) :
    getCounter { counters := (k, v) :: st.counters, expiry := e,
                 available := st.available } k = v := by
  simp [getCounter, List.lookup]

theorem getExpiry_update_self (c : List (String × Int)) (st : RedisState)
    (k : String) (v : Int) :
    getExpiry { counters := c, expiry := (k, v) :: st.expiry,
                available := st.available } k = some v := by
  simp [getExpiry, List.lookup]

/-- What a successful `RateLimit.__init__` computes: the window end, the
counter key, the capped count, and the store after the incr+expireat
batch. -/
theorem init_ok_eq (now : Int) (pfx : String) (limit per : Int) (sxh : Bool)
    (st : RedisState) (hper : per ≠ 0) (hav : st.available = true) :
    RateLimit.init now pfx limit per sxh st =
      .ok ({ reset := Int.fdiv now per * per + per,
             key := pfx ++ toString (Int.fdiv now per * per + per),
             limit := limit, per := per, send_x_headers := sxh,
             current := min (getCounter st
               (pfx ++ toString (Int.fdiv now per * per + per)) + 1) limit },
           { counters := (pfx ++ toString (Int.fdiv now per * per + per),
               getCounter st
                 (pfx ++ toString (Int.fdiv now per * per + per)) + 1) ::
               st.counters,
             expiry := (pfx ++ toString (Int.fdiv now per * per + per),
               Int.fdiv now per * per + per + RateLimit.expiration_window) ::
               st.expiry,
             available := st.available }) := by
  simp [RateLimit.init, hper, pipelineExec, hav, windowCmds, execCmds, runCmd]

/-- Inversion of a successful `RateLimit.__init__`. -/
theorem init_inv {now : Int} {pfx : String} {limit per : Int} {sxh : Bool}
    {st : RedisState} {rl : RateLimit} {st' : RedisState}
    (h : RateLimit.init now pfx limit per sxh st = .ok (rl, st')) :
    per ≠ 0 ∧ st.available = true ∧
      rl = { reset := Int.fdiv now per * per + per,
             key := pfx ++ toString (Int.fdiv now per * per + per),
             limit := limit, per := per, send_x_headers := sxh,
             current := min (getCounter st
               (pfx ++ toString (Int.fdiv now per * per + per)) + 1) limit } ∧
      st' = { counters := (pfx ++ toString (Int.fdiv now per * per + per),
                getCounter st
                  (pfx ++ toString (Int.fdiv now per * per + per)) + 1) ::
                st.counters,
              expiry := (pfx ++ toString (Int.fdiv now per * per + per),
                Int.fdiv now per * per + per + RateLimit.expiration_window) ::
                st.expiry,
              available := st.available } := by
  by_cases hper : per = 0
  · simp [RateLimit.init, hper] at h
  by_cases hav : st.available = true
  · rw [init_ok_eq now pfx limit per sxh st hper hav] at h
    simp only [Except.ok.injEq, Prod.mk.injEq] at h
    exact ⟨hper, hav, h.1.symm, h.2.symm⟩
  · have hav' : st.available = false := by
      cases hb : st.available
      · rfl
      · exact absurd hb hav
    simp [RateLimit.init, hper, pipelineExec, hav'] at h

theorem over_limit_iff_raw (limit c : Int) :
    decide (limit ≤ min (c + 1) limit) = decide (limit ≤ c + 1) := by
  simp only [decide_eq_decide]
  omega

/-- One invocation of the wrapped handler with the default rejection
handler, on a reachable store: the counter is bumped and the response is
the 429 rejection as soon as the post-increment count reaches `limit`. -/
theorem rate_limited_eq (limit per : Int) (sxh : Bool) (f : Unit → Response)
    (req : Request) (now : Int) (st : RedisState) (ctx : Ctx)
    (hper : per ≠ 0) (hav : st.available = true) :
    rate_limited limit per sxh (some on_over_limit) f req now st ctx =
      .ok ((if limit ≤ getCounter st (fullKey req now per) + 1
              then reject429 else f ()),
           { counters := (fullKey req now per,
               getCounter st (fullKey req now per) + 1) :: st.counters,
             expiry := (fullKey req now per,
               Int.fdiv now per * per + per + RateLimit.expiration_window) ::
               st.expiry,
             available := st.available },
           { view_rate_limit := some
               { reset := Int.fdiv now per * per + per,
                 key := fullKey req now per,
                 limit := limit, per := per, send_x_headers := sxh,
                 current := min (getCounter st (fullKey req now per) + 1)
                   limit } }) := by
  unfold rate_limited
  rw [init_ok_eq now (scopeKey req) limit per sxh st hper hav]
  simp only [fullKey, RateLimit.over_limit, on_over_limit,
    over_limit_iff_raw limit (getCounter st
      (scopeKey req ++ toString (Int.fdiv now per * per + per)))]
  by_cases hc : limit ≤ getCounter st
      (scopeKey req ++ toString (Int.fdiv now per * per + per)) + 1
  · simp [hc, reject429]
  · simp [hc]

/-- Any `n` sequential checks at a fixed time on a reachable store produce
exactly the `expectedResponses` starting from the key's current count. -/
theorem runChecks_eq (limit per : Int) (sxh : Bool) (f : Unit → Response)
    (req : Request) (now : Int) (hper : per ≠ 0) :
    ∀ (n : Nat) (st : RedisState) (ctx : Ctx), st.available = true →
      respsOf (runChecks limit per sxh (some on_over_limit) f req now n st ctx) =
        .ok (expectedResponses limit f n (getCounter st (fullKey req now per))) := by
  intro n
  induction n with
  | zero => intro st ctx hav; rfl
  | succ n ih =>
    intro st ctx hav
    rw [runChecks, rate_limited_eq limit per sxh f req now st ctx hper hav]
    have hstep := ih
      { counters := (fullKey req now per,
          getCounter st (fullKey req now per) + 1) :: st.counters,
        expiry := (fullKey req now per,
          Int.fdiv now per * per + per + RateLimit.expiration_window) ::
          st.expiry,
        available := st.available }
      { view_rate_limit := some
          { reset := Int.fdiv now per * per + per,
            key := fullKey req now per,
            limit := limit, per := per, send_x_headers := sxh,
            current := min (getCounter st (fullKey req now per) + 1) limit } }
      hav
    rw [getCounter_update_self st] at hstep
    revert hstep
    dsimp only
    cases hrun : runChecks limit per sxh (some on_over_limit) f req now n
        { counters := (fullKey req now per,
            getCounter st (fullKey req now per) + 1) :: st.counters,
          expiry := (fullKey req now per,
            Int.fdiv now per * per + per + RateLimit.expiration_window) ::
            st.expiry,
          available := st.available }
        { view_rate_limit := some
            { reset := Int.fdiv now per * per + per,
              key := fullKey req now per,
              limit := limit, per := per, send_x_headers := sxh,
              current := min (getCounter st (fullKey req now per) + 1)
                limit } } with
    | error e =>
      intro hstep
      simp [respsOf, Except.map] at hstep
    | ok p =>
      obtain ⟨rs, st'', ctx''⟩ := p
      intro hstep
      simp only [respsOf, Except.map, Except.ok.injEq] at hstep
      simp [respsOf, Except.map, expectedResponses, hstep]

/-- The `i`-th of the expected responses. -/
theorem expectedResponses_get (limit : Int) (f : Unit → Response) :
    ∀ (n i : Nat) (c : Int), i < n →
      (expectedResponses limit f n c)[i]? =
        some (if limit ≤ c + i + 1 then reject429 else f ()) := by
  intro n
  induction n with
  | zero => intro i c h; omega
  | succ n ih =>
    intro i c h
    cases i with
    | zero => simp [expectedResponses]
    | succ i =>
      rw [expectedResponses]
      rw [List.getElem?_cons_succ, ih i (c + 1) (by omega)]
      rw [show c + 1 + (i : Int) + 1 = c + ((i : Int) + 1) + 1 by ring]
      norm_cast

/-- C1 counterexample: with `limit = 2`, `per = 60` and three sequential
admission checks for the same scope in the same window, the responses are
admitted, rejected, rejected — the second check (N = 2 ≤ limit) is already
rejected with the 429 body, contradicting admitted, admitted, rejected. -/
theorem C1_counterexample :
    respsOf (runChecks 2 60 true (some on_over_limit) f0 req0 0 3 st0 ctx0) =
      .ok [okResp, reject429, reject429] ∧ reject429 ≠ okResp := by
  exact ⟨rfl, by decide⟩

/-- C1 (amended): for a fresh scope and window, the `i`-th (0-based)
sequential admission check is admitted exactly when its post-increment
count `i + 1` is strictly below `limit`, i.e. the first `limit - 1` checks
are admitted and every check from the `limit`-th on is rejected with the
fixed 429 body. -/
theorem C1_amended_first_window_checks (limit per : Int)
    (f : Unit → Response) (req : Request) (now : Int) (n i : Nat)
    (hper : per ≠ 0) (hi : i < n) :
    respsOf (runChecks limit per true (some on_over_limit) f req now n st0 ctx0) =
      .ok (expectedResponses limit f n 0) ∧
    (expectedResponses limit f n 0)[i]? =
      some (if (i : Int) + 1 < limit then f () else reject429) := by
  constructor
  · have h := runChecks_eq limit per true f req now hper n st0 ctx0 rfl
    simpa [getCounter, st0] using h
  · rw [expectedResponses_get limit f n i 0 hi]
    by_cases hc : (i : Int) + 1 < limit
    · rw [if_pos hc, if_neg (by omega)]
    · rw [if_neg hc, if_pos (by omega)]

/-- C1 witness: the amended statement at `limit = 2`, `per = 60`, three
checks, second check (index 1), which is rejected. -/
theorem C1_witness :
    respsOf (runChecks 2 60 true (some on_over_limit) f0 req0 0 3 st0 ctx0) =
      .ok (expectedResponses 2 f0 3 0) ∧
    (expectedResponses 2 f0 3 0)[1]? =
      some (if ((1 : Nat) : Int) + 1 < 2 then f0 () else reject429) :=
  C1_amended_first_window_checks 2 60 f0 req0 0 3 1 (by decide) (by decide)

/-- C2 counterexample: with an unreachable store, the admission check does
not fail open — the wrapped handler's result is not returned; instead the
store failure surfaces to the caller. -/
theorem C2_counterexample :
    rate_limited 2 60 true (some on_over_limit) f0 req0 0 stDown ctx0 =
      .error .storeUnavailable ∧
    respOf (rate_limited 2 60 true (some on_over_limit) f0 req0 0 stDown ctx0) ≠
      .ok (f0 ()) := by
  refine ⟨rfl, ?_⟩
  rw [show rate_limited 2 60 true (some on_over_limit) f0 req0 0 stDown ctx0 =
    .error .storeUnavailable from rfl]
  simp [respOf, Except.map]

/-- C2 (amended): when the counter-store round trip fails, the middleware
fails closed — the store error propagates out of the admission check, the
protected operation is not invoked (the result does not depend on `f` and
is not `f`'s result), and no rate-limit result is attached. -/
theorem C2_amended_store_failure_propagates (limit per : Int) (sxh : Bool)
    (ovh : Option (RateLimit → Response)) (f : Unit → Response)
    (req : Request) (now : Int) (st : RedisState) (ctx : Ctx)
    (hper : per ≠ 0) (hav : st.available = false) :
    rate_limited limit per sxh ovh f req now st ctx =
      .error .storeUnavailable := by
  simp [rate_limited, RateLimit.init, hper, pipelineExec, hav]

/-- C2 witness: the amended statement at a concrete unreachable store. -/
theorem C2_witness :
    rate_limited 2 60 true (some on_over_limit) f0 req0 0 stDown ctx0 =
      .error .storeUnavailable :=
  C2_amended_store_failure_propagates 2 60 true (some on_over_limit) f0 req0 0
    stDown ctx0 (by decide) rfl

/-- C3: for every admission check that produces a rate-limit result, the
result's `over_limit` is true iff its reported count has reached the
configured limit. -/
theorem C3_over_limit_iff (now : Int) (pfx : String) (limit per : Int)
    (sxh : Bool) (st : RedisState) (rl : RateLimit) (st' : RedisState)
    (h : RateLimit.init now pfx limit per sxh st = .ok (rl, st')) :
    rl.over_limit = true ↔ limit ≤ rl.current := by
  obtain ⟨hper, hav, hrl, hst⟩ := init_inv h
  subst hrl
  simp [RateLimit.over_limit]

/-- C3 witness: a concrete under-limit check (count 1, limit 2). -/
theorem C3_witness :
    ({ reset := 60, key := "p/60", limit := 2, per := 60,
       send_x_headers := true, current := 1 } : RateLimit).over_limit = true ↔
      (2 : Int) ≤
        ({ reset := 60, key := "p/60", limit := 2, per := 60,
           send_x_headers := true, current := 1 } : RateLimit).current :=
  C3_over_limit_iff 0 "p/" 2 60 true st0
    { reset := 60, key := "p/60", limit := 2, per := 60,
      send_x_headers := true, current := 1 }
    { counters := [("p/60", 1)], expiry := [("p/60", 70)], available := true }
    rfl

/-- C4: the result's `remaining` equals `max(limit - raw, 0)` where `raw`
is the post-increment stored counter value, and is therefore never
negative, even when the stored counter exceeds the limit. -/
theorem C4_remaining_max (now : Int) (pfx : String) (limit per : Int)
    (sxh : Bool) (st : RedisState) (rl : RateLimit) (st' : RedisState)
    (h : RateLimit.init now pfx limit per sxh st = .ok (rl, st')) :
    rl.remaining = max (limit - (getCounter st rl.key + 1)) 0 ∧
      0 ≤ rl.remaining := by
  obtain ⟨hper, hav, hrl, hst⟩ := init_inv h
  subst hrl
  simp only [RateLimit.remaining]
  constructor <;> omega

/-- C4 witness: a burst scenario — the stored counter is already 5, so the
raw post-increment count 6 exceeds `limit = 2`, yet remaining is 0. -/
theorem C4_witness :
    ({ reset := 60, key := "p/60", limit := 2, per := 60,
       send_x_headers := true, current := 2 } : RateLimit).remaining =
      max (2 - (getCounter
        { counters := [("p/60", 5)], expiry := [], available := true }
        ({ reset := 60, key := "p/60", limit := 2, per := 60,
           send_x_headers := true, current := 2 } : RateLimit).key + 1)) 0 ∧
    (0 : Int) ≤
      ({ reset := 60, key := "p/60", limit := 2, per := 60,
         send_x_headers := true, current := 2 } : RateLimit).remaining :=
  C4_remaining_max 0 "p/" 2 60 true
    { counters := [("p/60", 5)], expiry := [], available := true }
    { reset := 60, key := "p/60", limit := 2, per := 60,
      send_x_headers := true, current := 2 }
    { counters := [("p/60", 6), ("p/60", 5)], expiry := [("p/60", 70)],
      available := true }
    rfl

/-- C5 counterexample: wrapping a handler with the invalid configuration
`per = 0` does not fail at wrap time — the wrapped callable is built, and
its very first invocation fails with a `ZeroDivisionError` at request
time. -/
theorem C5_counterexample :
    ratelimit 100 0 true (some on_over_limit) f0 req0 0 st0 ctx0 =
      .error .zeroDivision := rfl

/-- C5 (amended): no configuration validation happens at wrap-construction
time; with `per = 0` every request fails at admission-check time with a
`ZeroDivisionError` (and other non-positive values are accepted
silently). -/
theorem C5_amended_per_zero_fails_per_request (limit : Int) (sxh : Bool)
    (ovh : Option (RateLimit → Response)) (f : Unit → Response)
    (req : Request) (now : Int) (st : RedisState) (ctx : Ctx) :
    ratelimit limit 0 sxh ovh f req now st ctx = .error .zeroDivision := by
  simp [ratelimit, rate_limited, RateLimit.init]

/-- C6: with the default `on_over_limit` handler, an admission check whose
result is over limit short-circuits — for every wrapped handler `f` the
response is exactly the JSON body
`{"data": "You hit the rate limit", "error": "429"}` with status 429, so
`f` is never invoked. -/
theorem C6_over_limit_rejection (limit per : Int) (sxh : Bool)
    (f : Unit → Response) (req : Request) (now : Int) (st : RedisState)
    (ctx : Ctx) (rl : RateLimit) (st' : RedisState)
    (h : RateLimit.init now (scopeKey req) limit per sxh st = .ok (rl, st'))
    (hover : rl.over_limit = true) :
    rate_limited limit per sxh (some on_over_limit) f req now st ctx =
      .ok ({ body := .json [("data", "You hit the rate limit"),
                            ("error", "429")],
             status := 429, headers := [] },
           st', { view_rate_limit := some rl }) := by
  unfold rate_limited
  rw [h]
  simp [hover, on_over_limit]

/-- C6 witness: `limit = 1`, fresh store, first check is already over
limit and produces the fixed 429 response. -/
theorem C6_witness :
    rate_limited 1 60 true (some on_over_limit) f0 req0 0 st0 ctx0 =
      .ok ({ body := .json [("data", "You hit the rate limit"),
                            ("error", "429")],
             status := 429, headers := [] },
           { counters := [("rate-limit/events_hourly/1.2.3.4/60", 1)],
             expiry := [("rate-limit/events_hourly/1.2.3.4/60", 70)],
             available := true },
           { view_rate_limit := some
               { reset := 60, key := "rate-limit/events_hourly/1.2.3.4/60",
                 limit := 1, per := 60, send_x_headers := true,
                 current := 1 } }) :=
  C6_over_limit_rejection 1 60 true f0 req0 0 st0 ctx0
    { reset := 60, key := "rate-limit/events_hourly/1.2.3.4/60",
      limit := 1, per := 60, send_x_headers := true, current := 1 }
    { counters := [("rate-limit/events_hourly/1.2.3.4/60", 1)],
      expiry := [("rate-limit/events_hourly/1.2.3.4/60", 70)],
      available := true }
    rfl rfl

/-- C7: a successful admission check issues exactly one batch of exactly
two store operations — increment the counter key by 1, then set the key's
absolute expiry to `window_end + expiration_window` (with
`expiration_window = 10`) — so the counter is bumped by one, the scheduled
expiry equals `window_end + 10`, and that expiry is never earlier than the
window end. -/
theorem C7_batch (now : Int) (pfx : String) (limit per : Int) (sxh : Bool)
    (st : RedisState) (rl : RateLimit) (st' : RedisState)
    (h : RateLimit.init now pfx limit per sxh st = .ok (rl, st')) :
    windowCmds rl.key rl.reset =
      [RedisCmd.incr rl.key,
       RedisCmd.expireat rl.key (rl.reset + RateLimit.expiration_window)] ∧
    (windowCmds rl.key rl.reset).length = 2 ∧
    RateLimit.expiration_window = 10 ∧
    getCounter st' rl.key = getCounter st rl.key + 1 ∧
    getExpiry st' rl.key = some (rl.reset + RateLimit.expiration_window) ∧
    rl.reset ≤ rl.reset + RateLimit.expiration_window := by
  obtain ⟨hper, hav, hrl, hst⟩ := init_inv h
  subst hrl
  subst hst
  refine ⟨rfl, rfl, rfl, ?_, ?_, ?_⟩
  · simp [getCounter, List.lookup]
  · simp [getExpiry, List.lookup]
  · simp [RateLimit.expiration_window]

/-- C7 witness: the batch and post-state of a concrete check. -/
theorem C7_witness :
    windowCmds "p/60" 60 =
      [RedisCmd.incr "p/60",
       RedisCmd.expireat "p/60" (60 + RateLimit.expiration_window)] ∧
    (windowCmds "p/60" 60).length = 2 ∧
    RateLimit.expiration_window = 10 ∧
    getCounter { counters := [("p/60", 1)], expiry := [("p/60", 70)],
                 available := true } "p/60" =
      getCounter st0 "p/60" + 1 ∧
    getExpiry { counters := [("p/60", 1)], expiry := [("p/60", 70)],
                available := true } "p/60" =
      some (60 + RateLimit.expiration_window) ∧
    (60 : Int) ≤ 60 + RateLimit.expiration_window :=
  C7_batch 0 "p/" 2 60 true st0
    { reset := 60, key := "p/60", limit := 2, per := 60,
      send_x_headers := true, current := 1 }
    { counters := [("p/60", 1)], expiry := [("p/60", 70)], available := true }
    rfl

/-- C8: the counter key is the scope prefix concatenated with the decimal
string of `window_end = (now fdiv per) * per + per`, and two checks with
the same prefix whose (non-negative) timestamps fall in different windows
of a positive `per` produce distinct keys. -/
theorem C8_distinct_keys (t1 t2 : Int) (pfx : String) (limit per : Int)
    (sxh : Bool) (st1 st2 : RedisState) (rl1 rl2 : RateLimit)
    (st1' st2' : RedisState)
    (hper : 0 < per) (ht1 : 0 ≤ t1) (ht2 : 0 ≤ t2)
    (h1 : RateLimit.init t1 pfx limit per sxh st1 = .ok (rl1, st1'))
    (h2 : RateLimit.init t2 pfx limit per sxh st2 = .ok (rl2, st2'))
    (hw : Int.fdiv t1 per ≠ Int.fdiv t2 per) :
    rl1.key = pfx ++ toString rl1.reset ∧
    rl1.reset = Int.fdiv t1 per * per + per ∧
    rl1.key ≠ rl2.key := by
  obtain ⟨hp1, hav1, hrl1, hst1⟩ := init_inv h1
  obtain ⟨hp2, hav2, hrl2, hst2⟩ := init_inv h2
  subst hrl1
  subst hrl2
  refine ⟨rfl, rfl, ?_⟩
  intro hk
  simp only at hk
  have hdata := congrArg String.data hk
  rw [String.data_append, String.data_append] at hdata
  have hsuffix := List.append_cancel_left hdata
  have hstr : toString (Int.fdiv t1 per * per + per) =
      toString (Int.fdiv t2 per * per + per) := String.ext hsuffix
  have hq1 : 0 ≤ Int.fdiv t1 per := Int.fdiv_nonneg ht1 (le_of_lt hper)
  have hq2 : 0 ≤ Int.fdiv t2 per := Int.fdiv_nonneg ht2 (le_of_lt hper)
  have hm1 : 0 ≤ Int.fdiv t1 per * per := mul_nonneg hq1 (le_of_lt hper)
  have hm2 : 0 ≤ Int.fdiv t2 per * per := mul_nonneg hq2 (le_of_lt hper)
  have heq : Int.fdiv t1 per * per + per = Int.fdiv t2 per * per + per :=
    toString_int_injective (by omega) (by omega) hstr
  have hmul : Int.fdiv t1 per * per = Int.fdiv t2 per * per := by omega
  exact hw (mul_right_cancel₀ (by omega) hmul)

/-- C8 witness: `per = 60`, timestamps 0 and 60 fall in different windows
and give the distinct keys `p/60` and `p/120`. -/
theorem C8_witness :
    ({ reset := 60, key := "p/60", limit := 2, per := 60,
       send_x_headers := true, current := 1 } : RateLimit).key =
      "p/" ++ toString
        ({ reset := 60, key := "p/60", limit := 2, per := 60,
           send_x_headers := true, current := 1 } : RateLimit).reset ∧
    ({ reset := 60, key := "p/60", limit := 2, per := 60,
       send_x_headers := true, current := 1 } : RateLimit).reset =
      Int.fdiv 0 60 * 60 + 60 ∧
    ({ reset := 60, key := "p/60", limit := 2, per := 60,
       send_x_headers := true, current := 1 } : RateLimit).key ≠
      ({ reset := 120, key := "p/120", limit := 2, per := 60,
         send_x_headers := true, current := 1 } : RateLimit).key :=
  C8_distinct_keys 0 60 "p/" 2 60 true st0 st0
    { reset := 60, key := "p/60", limit := 2, per := 60,
      send_x_headers := true, current := 1 }
    { reset := 120, key := "p/120", limit := 2, per := 60,
      send_x_headers := true, current := 1 }
    { counters := [("p/60", 1)], expiry := [("p/60", 70)], available := true }
    { counters := [("p/120", 1)], expiry := [("p/120", 130)],
      available := true }
    (by decide) (by decide) (by decide) rfl rfl (by decide)

/-- C9: the after-request hook adds exactly the three headers
`X-RateLimit-Remaining`, `X-RateLimit-Limit`, `X-RateLimit-Reset` when a
rate-limit result with header exposure enabled is attached, leaves the
response unchanged when no result is attached, and in the end-to-end
scenario `limit = 100`, `per = 60`, a single call yields
`X-RateLimit-Remaining: 99`. -/
theorem C9_headers (ctx : Ctx) (resp : Response) (l : RateLimit) :
    (get_view_rate_limit ctx = some l → l.send_x_headers = true →
      inject_x_rate_headers ctx resp =
        { resp with headers := resp.headers ++
            [("X-RateLimit-Remaining", toString l.remaining),
             ("X-RateLimit-Limit", toString l.limit),
             ("X-RateLimit-Reset", toString l.reset)] }) ∧
    (get_view_rate_limit ctx = none →
      inject_x_rate_headers ctx resp = resp) ∧
    (rate_limited 100 60 true (some on_over_limit) f0 req0 0 st0 ctx0).map
        (fun p => inject_x_rate_headers p.2.2 p.1) =
      .ok { body := Body.text "ok", status := 200,
            headers := [("X-RateLimit-Remaining", "99"),
                        ("X-RateLimit-Limit", "100"),
                        ("X-RateLimit-Reset", "60")] } := by
  refine ⟨?_, ?_, rfl⟩
  · intro hsome hson
    simp [inject_x_rate_headers, hsome, hson]
  · intro hnone
    simp [inject_x_rate_headers, hnone]

/-- C9 witness: the header-adding case at a concrete attached result and
the no-op case at an empty context. -/
theorem C9_witness :
    inject_x_rate_headers
        { view_rate_limit := some
            { reset := 60, key := "p/60", limit := 100, per := 60,
              send_x_headers := true, current := 1 } } okResp =
      { okResp with headers := okResp.headers ++
          [("X-RateLimit-Remaining", toString
              ({ reset := 60, key := "p/60", limit := 100, per := 60,
                 send_x_headers := true,
                 current := 1 } : RateLimit).remaining),
           ("X-RateLimit-Limit", toString
              ({ reset := 60, key := "p/60", limit := 100, per := 60,
                 send_x_headers := true,
                 current := 1 } : RateLimit).limit),
           ("X-RateLimit-Reset", toString
              ({ reset := 60, key := "p/60", limit := 100, per := 60,
                 send_x_headers := true,
                 current := 1 } : RateLimit).reset)] } ∧
    inject_x_rate_headers ctx0 okResp = okResp :=
  ⟨(C9_headers
      { view_rate_limit := some
          { reset := 60, key := "p/60", limit := 100, per := 60,
            send_x_headers := true, current := 1 } } okResp
      { reset := 60, key := "p/60", limit := 100, per := 60,
        send_x_headers := true, current := 1 }).1 rfl rfl,
   (C9_headers ctx0 okResp
      { reset := 60, key := "p/60", limit := 100, per := 60,
        send_x_headers := true, current := 1 }).2.1 rfl⟩

/-- C10: when the `over_limit` handler argument is `None`, the wrapped
handler `f` is always invoked and its result returned unchanged — even
when the check's result is over limit — while the count is still recorded
in the store and the result attached to the request context. -/
theorem C10_none_handler (limit per : Int) (sxh : Bool)
    (f : Unit → Response) (req : Request) (now : Int) (st : RedisState)
    (ctx : Ctx) (rl : RateLimit) (st' : RedisState)
    (h : RateLimit.init now (scopeKey req) limit per sxh st = .ok (rl, st')) :
    rate_limited limit per sxh none f req now st ctx =
      .ok (f (), st', { view_rate_limit := some rl }) := by
  unfold rate_limited
  rw [h]

/-- C10 witness: the counter is already at 5 with `limit = 1`, so the
check is over limit, yet with handler `None` the handler response is
returned, the incremented count recorded, and the result attached. -/
theorem C10_witness :
    ({ reset := 60, key := "rate-limit/events_hourly/1.2.3.4/60",
       limit := 1, per := 60, send_x_headers := true,
       current := 1 } : RateLimit).over_limit = true ∧
    rate_limited 1 60 true none f0 req0 0
        { counters := [("rate-limit/events_hourly/1.2.3.4/60", 5)],
          expiry := [], available := true } ctx0 =
      .ok (f0 (),
           { counters := [("rate-limit/events_hourly/1.2.3.4/60", 6),
                          ("rate-limit/events_hourly/1.2.3.4/60", 5)],
             expiry := [("rate-limit/events_hourly/1.2.3.4/60", 70)],
             available := true },
           { view_rate_limit := some
               { reset := 60, key := "rate-limit/events_hourly/1.2.3.4/60",
                 limit := 1, per := 60, send_x_headers := true,
                 current := 1 } }) :=
  ⟨rfl,
   C10_none_handler 1 60 true f0 req0 0
     { counters := [("rate-limit/events_hourly/1.2.3.4/60", 5)],
       expiry := [], available := true } ctx0
     { reset := 60, key := "rate-limit/events_hourly/1.2.3.4/60",
       limit := 1, per := 60, send_x_headers := true, current := 1 }
     { counters := [("rate-limit/events_hourly/1.2.3.4/60", 6),
                    ("rate-limit/events_hourly/1.2.3.4/60", 5)],
       expiry := [("rate-limit/events_hourly/1.2.3.4/60", 70)],
       available := true }
     rfl⟩

end EqWorks
